import Mathlib

/-!
Shallow embedding of the TextEdit2 editing core (src/src/document.rs,
src/src/actions.rs, src/src/application_model.rs) together with proofs of
the specified properties of its revision history and reducer.

Conventions of the embedding:
* Rust `Vec<String>` becomes `List String`; `usize` indices become `Nat`
  (all index arithmetic in the source stays far below any overflow bound,
  and the one truncating subtraction, `len - 1` in `can_redo`, is modelled
  by truncated `Nat` subtraction exactly as `usize` would wrap or panic
  only on an empty history, which the invariant below excludes).
* A Rust operation that can panic (`unwrap`, `Vec::remove` out of bounds)
  is modelled with `Option`: `none` is the panic.
* `std::path::PathBuf` is modelled by its parsed components, enough to
  give `file_name` its Rust semantics (last component, unless the path is
  a bare root or ends in a `..` component, in which case `file_name` is
  `None`; `.` components are dropped by the parser as Rust does).
* The `FileSystem` trait of document.rs is modelled by a record of pure
  state-passing operations over an abstract filesystem state `T`;
  `read_to_string` returns the text it appends to the (always freshly
  empty) buffer together with the new state.
-/

namespace TextEdit2

/-- Model of `std::path::PathBuf`: whether the path is absolute, plus its
parsed components (with `.` components already dropped, as Rust's
`Components` iterator does; `..` components are kept). -/
structure RustPath where
  absolute : Bool
  components : List String
deriving DecidableEq, Repr

/-- Model of `std::path::Path::file_name`: the final component, unless the
path has no components (a bare root such as "/") or ends in `..`. -/
def RustPath.fileName (p : RustPath) : Option String :=
  match p.components.getLast? with
  | none => none
  | some c => if c = ".." then none else some c

/-- MAX_UNDO constant of document.rs (line 7). -/
def MAX_UNDO : Nat := 100

/-- Model of the `FileSystem` trait of document.rs: `read_to_string`
returns the text appended to the buffer and the updated filesystem state,
`write_string` returns the updated state. -/
structure FSOps (T : Type) where
  read_to_string : T → RustPath → String × T
  write_string : T → RustPath → String → T

/-- Model of `GenericDocument<T: FileSystem>` of document.rs. -/
structure GenericDocument (T : Type) where
  history : List String
  file_path : Option RustPath
  current_revision : Nat
  fs : T
deriving DecidableEq, Repr

namespace GenericDocument

variable {T : Type}

/-- GenericDocument::new (document.rs lines 47-56): a single empty
snapshot, no file path, revision 0. -/
def new (fs : T) : GenericDocument T :=
  { history := [""], file_path := none, current_revision := 0, fs := fs }

/-- GenericDocument::filepath (document.rs lines 57-59). -/
def filepath (d : GenericDocument T) : Option RustPath :=
  d.file_path

/-- GenericDocument::filename (document.rs lines 60-68).
`path.file_name().unwrap()` panics when `file_name()` is `None`; the
outer `none` models that panic. `into_string()` always succeeds on the
UTF-8 strings of the model, matching the `Ok` arm. -/
def filename (d : GenericDocument T) : Option (Option String) :=
  match d.file_path with
  | none => some none
  | some path =>
    match path.fileName with
    | none => none
    | some s => some (some s)

/-- GenericDocument::can_undo (document.rs lines 69-71). -/
def can_undo (d : GenericDocument T) : Bool :=
  decide (0 < d.current_revision)

/-- GenericDocument::can_redo (document.rs lines 72-74): `len() - 1` is
truncated subtraction, evaluated on a never-empty history in every
reachable state. -/
def can_redo (d : GenericDocument T) : Bool :=
  decide (d.current_revision < d.history.length - 1)

/-- GenericDocument::text (document.rs lines 75-80): total, with the
`None => String::new()` fallback. -/
def text (d : GenericDocument T) : String :=
  (d.history.get? d.current_revision).getD ""

/-- GenericDocument::original (document.rs lines 81-83):
`history.get(0).unwrap()`; `none` models the unwrap panic on an empty
history. -/
def original (d : GenericDocument T) : Option String :=
  d.history.get? 0

/-- GenericDocument::is_dirty (document.rs lines 84-86): calls
`original()`, hence inherits its panic on an empty history. -/
def is_dirty (d : GenericDocument T) : Option Bool :=
  (d.original).map (fun o => !(d.text == o))

/-- GenericDocument::undo (document.rs lines 87-91). -/
def undo (d : GenericDocument T) : GenericDocument T :=
  if 0 < d.current_revision then
    { d with current_revision := d.current_revision - 1 }
  else d

/-- GenericDocument::redo (document.rs lines 92-97). -/
def redo (d : GenericDocument T) : GenericDocument T :=
  if d.history.isEmpty then d
  else
    let r := min (d.history.length - 1) (d.current_revision + 1)
    { d with current_revision := r }

/-- GenericDocument::update (document.rs lines 98-105): when the history
is at (or beyond) capacity, first `Vec::remove(1)` (total here as
`List.eraseIdx 1`; the Rust call cannot panic under the guard since
`len >= MAX_UNDO >= 2`), then truncate to `current_revision + 1`, push
the new value, and move the revision pointer to the new tail. -/
def update (d : GenericDocument T) (value : String) : GenericDocument T :=
  let h0 := if MAX_UNDO ≤ d.history.length then d.history.eraseIdx 1 else d.history
  let h1 := h0.take (d.current_revision + 1)
  let h2 := h1 ++ [value]
  { d with history := h2, current_revision := h2.length - 1 }

/-- GenericDocument::reset (document.rs lines 106-111). -/
def reset (d : GenericDocument T) : GenericDocument T :=
  { d with history := [""], file_path := none, current_revision := 0 }

/-- GenericDocument::open (document.rs lines 112-119; `open` is a Lean
keyword, hence the name): reset, set the file path, read through the
filesystem into a fresh buffer, then replace the history with that single
snapshot. -/
def open_doc (ops : FSOps T) (d : GenericDocument T) (path : RustPath) :
    GenericDocument T :=
  let d1 := d.reset
  let d2 := { d1 with file_path := some path }
  let ri := ops.read_to_string d2.fs path
  { d2 with history := [ri.1], fs := ri.2 }

/-- GenericDocument::save (document.rs lines 120-126): snapshot the
current text, set the file path, write through the filesystem, then
`remove(0)` followed by `insert(0, contents)` re-anchors the baseline.
(`Vec::remove(0)` would panic on an empty history; `List.eraseIdx 0` is
total, and every theorem about `save` assumes the never-empty invariant.) -/
def save (ops : FSOps T) (d : GenericDocument T) (path : RustPath) :
    GenericDocument T :=
  let contents := d.text
  let d2 := { d with file_path := some path }
  let fs2 := ops.write_string d2.fs path contents
  { d2 with fs := fs2, history := contents :: d2.history.eraseIdx 0 }

end GenericDocument

/-- Iterated undo: `undoN k d` performs `k` successive `undo()` calls. -/
def undoN {T : Type} : Nat → GenericDocument T → GenericDocument T
  | 0, d => d
  | k + 1, d => undoN k d.undo

/-- Folding `update` over a list of texts: one `update` call per element,
in order. -/
def updateAll {T : Type} (d : GenericDocument T) (vs : List String) :
    GenericDocument T :=
  vs.foldl (fun d v => d.update v) d

/-- Documents reachable from construction by any sequence of the public
mutating operations of document.rs. -/
inductive Reachable {T : Type} (ops : FSOps T) : GenericDocument T → Prop where
  | new (fs : T) : Reachable ops (GenericDocument.new fs)
  | update (d : GenericDocument T) (v : String) :
      Reachable ops d → Reachable ops (d.update v)
  | undo (d : GenericDocument T) : Reachable ops d → Reachable ops d.undo
  | redo (d : GenericDocument T) : Reachable ops d → Reachable ops d.redo
  | reset (d : GenericDocument T) : Reachable ops d → Reachable ops d.reset
  | open_doc (d : GenericDocument T) (p : RustPath) :
      Reachable ops d → Reachable ops (GenericDocument.open_doc ops d p)
  | save (d : GenericDocument T) (p : RustPath) :
      Reachable ops d → Reachable ops (GenericDocument.save ops d p)

/-- Model of the error enum of actions.rs (lines 9-13). -/
inductive Err where
  | IOError : Err
  | UnknownError : Err
deriving DecidableEq, Repr

/-- Model of `IOResult` of actions.rs (line 15):
`Result<(PathBuf, String), Err>`. -/
def IOResult : Type := Except Err (RustPath × String)

/-- Model of the Action enum of actions.rs (lines 1-7). -/
inductive Action where
  | OpenFile : Option RustPath → Action
  | SaveFile : RustPath → Action
  | DocumentChanged : String → Action
  | FileOpenFinished : IOResult → Action
  | FileSaveFinished : IOResult → Action

/-- Model of StatusMessage of application_model.rs (lines 10-17); the
results carried are `Result<(), Err>`. -/
inductive StatusMessage where
  | None : StatusMessage
  | OpeningFile : StatusMessage
  | SavingFile : StatusMessage
  | FileSaveFinished : Except Err Unit → StatusMessage
  | FileOpenFinished : Except Err Unit → StatusMessage

/-- Model of Changes of application_model.rs (lines 25-40). -/
structure Changes where
  filename : Bool
  text : Bool
  status_message : Bool
deriving DecidableEq, Repr

/-- Changes::new (application_model.rs lines 33-39). -/
def Changes.new (filename text status_message : Bool) : Changes :=
  { filename := filename, text := text, status_message := status_message }

/-- Modelled from the spec: `GenericDocument::open(path, contents)` as
called by the reducer (application_model.rs line 112) is not present in
src/src/document.rs (which only has the one-argument, filesystem-reading
`open`); per spec section 4.2 the effect of `FileOpenFinished(Ok(path,
contents))` is "history reseeded from contents, file path set". -/
def GenericDocument.open_with {T : Type} (d : GenericDocument T)
    (path : RustPath) (contents : String) : GenericDocument T :=
  { d with history := [contents], file_path := some path,
           current_revision := 0 }

/-- Modelled from the spec: `GenericDocument::save(path, contents)` as
called by the reducer (application_model.rs line 117) is not present in
src/src/document.rs (which only has the one-argument, filesystem-writing
`save`); per spec section 4.2 the effect of `FileSaveFinished(Ok(path,
contents))` is "baseline re-anchored to contents, file path set". -/
def GenericDocument.save_with {T : Type} (d : GenericDocument T)
    (path : RustPath) (contents : String) : GenericDocument T :=
  { d with history := contents :: d.history.eraseIdx 0,
           file_path := some path }

/-- A background task spawned by the reducer, as a value: the thread
spawned for `OpenFile(Some(path))` performs a read at `path`, the one
spawned for `SaveFile(path)` performs a write of the captured contents.
Each sends exactly one completion action back on the channel; the channel
send is modelled by returning the action from `runEffect` below. -/
inductive Effect where
  | spawnRead : RustPath → Effect
  | spawnWrite : RustPath → String → Effect
deriving DecidableEq, Repr

/-- Model of ApplicationModel of application_model.rs (lines 42-47): the
document and the status message. The channel sender `tx` is not state
that the reducer logic reads; the actions a background task would send
through it are returned as values instead. The document's filesystem
parameter is `Unit` since the reducer-side document operations perform no
filesystem access themselves. -/
structure ApplicationModel where
  document : GenericDocument Unit
  status_message : StatusMessage

/-- ApplicationModel::update (application_model.rs lines 74-130): the
single-threaded reducer. Returns the new model, the Changes descriptor,
and the background tasks spawned by this action (in the source, the
`thread::spawn` calls). -/
def ApplicationModel.update (m : ApplicationModel) (a : Action) :
    ApplicationModel × Changes × List Effect :=
  match a with
  | .OpenFile (some path) =>
    ({ m with status_message := .OpeningFile },
     Changes.new false false true, [.spawnRead path])
  | .OpenFile none =>
    ({ m with document := m.document.reset,
              status_message := .OpeningFile },
     Changes.new false false true, [])
  | .SaveFile path =>
    let contents := m.document.text
    ({ m with status_message := .SavingFile },
     Changes.new false false true, [.spawnWrite path contents])
  | .DocumentChanged value =>
    ({ m with document := m.document.update value },
     Changes.new false false false, [])
  | .FileOpenFinished (.ok (path, contents)) =>
    ({ m with document := m.document.open_with path contents,
              status_message := .FileOpenFinished (.ok ()) },
     Changes.new true true true, [])
  | .FileSaveFinished (.ok (path, contents)) =>
    ({ m with document := m.document.save_with path contents,
              status_message := .FileSaveFinished (.ok ()) },
     Changes.new true false true, [])
  | .FileOpenFinished (.error e) =>
    ({ m with status_message := .FileOpenFinished (.error e) },
     Changes.new false false true, [])
  | .FileSaveFinished (.error e) =>
    ({ m with status_message := .FileSaveFinished (.error e) },
     Changes.new false false true, [])

/-- Model of the body of the background thread spawned for
`OpenFile(Some(path))` (application_model.rs lines 78-85): the fallible
read (the `FileSystem::read_to_string` of application_model.rs lines
136-141, an `io::Result`) is matched, `Ok` becomes
`FileOpenFinished(Ok(path, contents))` and any error value becomes
`FileOpenFinished(Err(IOError))`; the resulting action is what the task
sends on the channel. The underlying I/O is abstracted as a function
returning `Except e String` for an arbitrary error type `e`. -/
def bgOpenTask {e : Type} (fsRead : RustPath → Except e String)
    (path : RustPath) : Action :=
  match fsRead path with
  | .ok contents => .FileOpenFinished (.ok (path, contents))
  | .error _ => .FileOpenFinished (.error .IOError)

/-- Model of the body of the background thread spawned for
`SaveFile(path)` (application_model.rs lines 97-103), over a fallible
write (the `FileSystem::write_string` of application_model.rs lines
142-146). -/
def bgSaveTask {e : Type} (fsWrite : RustPath → String → Except e Unit)
    (path : RustPath) (contents : String) : Action :=
  match fsWrite path contents with
  | .ok _ => .FileSaveFinished (.ok (path, contents))
  | .error _ => .FileSaveFinished (.error .IOError)

/-- Abstract store of file contents by path, for reasoning about what a
completed background write leaves on disk. -/
def Storage : Type := RustPath → Option String

/-- Running a spawned effect against a store, on the success path of the
underlying I/O: a read task leaves the store alone and completes with the
stored text, a write task stores the frozen contents it carried and
completes with exactly those contents. -/
def runEffect (σ : Storage) : Effect → Storage × Action
  | .spawnRead p => (σ, .FileOpenFinished (.ok (p, (σ p).getD "")))
  | .spawnWrite p c =>
    (fun q => if q = p then some c else σ q, .FileSaveFinished (.ok (p, c)))

/-- Model of the MockFileSystem of document.rs's test module: the
filesystem state is the stored string; reading appends the stored data to
the buffer and leaves the state alone, writing replaces the state with
the written contents. -/
def mockOps : FSOps String :=
  { read_to_string := fun fs _ => (fs, fs)
    write_string := fun _ _ contents => contents }

/-- History transformation performed by one `update` call made while the
revision pointer is at the tail of the history (the situation after any
preceding `update`): evict index 1 when at capacity, then append. -/
def updateTail (H : List String) (v : String) : List String :=
  if MAX_UNDO ≤ H.length then H.eraseIdx 1 ++ [v] else H ++ [v]

/-- An ordinary absolute file path. -/
def pW : RustPath := ⟨true, ["home", "user", "t.txt"]⟩

/-- The bare root path "/": it has no components, so `file_name()` is
`None` on it. -/
def pRoot : RustPath := ⟨true, []⟩

/-- Ninety-nine pairwise distinct edit texts: "0", "1", ..., "98". -/
def vs99 : List String := (List.range 99).map Nat.repr

/-- A reachable document whose history is full (100 snapshots) with the
revision pointer in the middle: 99 updates from a fresh document followed
by 49 undo calls. Its history is ["", "0", ..., "98"] and its current
revision is 50. -/
def d100 : GenericDocument Unit := undoN 49 (updateAll (GenericDocument.new ()) vs99)

/-- A reachable document sitting at the baseline with one redo-able edit:
a fresh document after update("a") and one undo. -/
def dUndoOne : GenericDocument Unit := ((GenericDocument.new ()).update "a").undo

/-- One hundred pairwise distinct edit texts: "0", ..., "99". -/
def vsW : List String := (List.range 100).map Nat.repr

/-- A read operation that always fails, for exercising the error path of
the background tasks. -/
def failRead : RustPath → Except Unit String := fun _ => .error ()

/-- A write operation that always fails. -/
def failWrite : RustPath → String → Except Unit Unit := fun _ _ => .error ()

set_option maxRecDepth 20000

/-- Helper: the last element of an appended singleton, read back through
`get?` at the tail index, with the `getD` fallback of `text`. -/
theorem getD_concat (t : List String) (v : String) :
    ((t ++ [v]).get? ((t ++ [v]).length - 1)).getD "" = v := by
  simp [List.get?_eq_getElem?, List.getElem?_concat_length]

/-- Helper: after any `update(v)`, the visible text is `v`. -/
theorem GenericDocument.text_update {T : Type} (d : GenericDocument T) (v : String) :
    (d.update v).text = v := by
  simp only [GenericDocument.update, GenericDocument.text]
  exact getD_concat _ v

/-- Helper: after any `update`, `can_redo` is false. -/
theorem GenericDocument.can_redo_update {T : Type} (d : GenericDocument T) (v : String) :
    (d.update v).can_redo = false := by
  simp [GenericDocument.update, GenericDocument.can_redo]

/-- C3: every failure of the fallible Storage Port operations used by the
background tasks (the io::Result-returning FileSystem of
application_model.rs) is converted at the task boundary into a
FileOpenFinished(Err(IOError)) or FileSaveFinished(Err(IOError)) action,
and the task always produces a completion action (it is a total function
of the I/O outcome: no unwinding, no panic branch). -/
theorem C3_storage_failure_to_action {e : Type}
    (fsRead : RustPath → Except e String)
    (fsWrite : RustPath → String → Except e Unit)
    (p : RustPath) (c : String) :
    (∃ r, bgOpenTask fsRead p = .FileOpenFinished r) ∧
    (∀ err, fsRead p = .error err →
      bgOpenTask fsRead p = .FileOpenFinished (.error .IOError)) ∧
    (∀ s, fsRead p = .ok s →
      bgOpenTask fsRead p = .FileOpenFinished (.ok (p, s))) ∧
    (∃ r, bgSaveTask fsWrite p c = .FileSaveFinished r) ∧
    (∀ err, fsWrite p c = .error err →
      bgSaveTask fsWrite p c = .FileSaveFinished (.error .IOError)) ∧
    (∀ u, fsWrite p c = .ok u →
      bgSaveTask fsWrite p c = .FileSaveFinished (.ok (p, c))) := by
  refine ⟨?_, ?_, ?_, ?_, ?_, ?_⟩
  · unfold bgOpenTask
    cases h : fsRead p <;> exact ⟨_, rfl⟩
  · intro err h
    unfold bgOpenTask
    rw [h]
  · intro s h
    unfold bgOpenTask
    rw [h]
  · unfold bgSaveTask
    cases h : fsWrite p c <;> exact ⟨_, rfl⟩
  · intro err h
    unfold bgSaveTask
    rw [h]
  · intro u h
    unfold bgSaveTask
    rw [h]

/-- Witness for C3 at a concrete always-failing storage. -/
theorem C3_witness :
    bgOpenTask failRead pW = .FileOpenFinished (.error .IOError) ∧
    bgSaveTask failWrite pW "x" = .FileSaveFinished (.error .IOError) :=
  ⟨(C3_storage_failure_to_action failRead failWrite pW "x").2.1 () rfl,
   (C3_storage_failure_to_action failRead failWrite pW "x").2.2.2.2.1 () rfl⟩

/-- C6: processing FileOpenFinished(Err(e)) or FileSaveFinished(Err(e))
leaves the document (hence its history, position, file path and text)
unchanged, sets only the status message, spawns nothing, and the emitted
Changes has only the status flag true. -/
theorem C6_error_atomicity (m : ApplicationModel) (e : Err) :
    (m.update (.FileOpenFinished (.error e))).1.document = m.document ∧
    (m.update (.FileOpenFinished (.error e))).1.status_message =
      .FileOpenFinished (.error e) ∧
    (m.update (.FileOpenFinished (.error e))).2.1 = Changes.new false false true ∧
    (m.update (.FileOpenFinished (.error e))).2.2 = [] ∧
    (m.update (.FileSaveFinished (.error e))).1.document = m.document ∧
    (m.update (.FileSaveFinished (.error e))).1.status_message =
      .FileSaveFinished (.error e) ∧
    (m.update (.FileSaveFinished (.error e))).2.1 = Changes.new false false true ∧
    (m.update (.FileSaveFinished (.error e))).2.2 = [] :=
  ⟨rfl, rfl, rfl, rfl, rfl, rfl, rfl, rfl⟩

/-- C9: processing SaveFile(p) spawns a write task carrying the document
text frozen at dispatch time; a DocumentChanged(y) processed afterwards
changes the live text to y but spawns nothing and cannot affect the
already-captured snapshot, and running the write effect stores and
reports exactly the frozen text. -/
theorem C9_frozen_snapshot (m : ApplicationModel) (p : RustPath) (y : String)
    (σ : Storage) :
    (m.update (.SaveFile p)).2.2 = [.spawnWrite p m.document.text] ∧
    ((m.update (.SaveFile p)).1.update (.DocumentChanged y)).1.document.text = y ∧
    ((m.update (.SaveFile p)).1.update (.DocumentChanged y)).2.2 = [] ∧
    (runEffect σ (.spawnWrite p m.document.text)).2 =
      .FileSaveFinished (.ok (p, m.document.text)) ∧
    (runEffect σ (.spawnWrite p m.document.text)).1 p = some m.document.text := by
  refine ⟨rfl, ?_, rfl, rfl, ?_⟩
  · exact GenericDocument.text_update m.document y
  · simp [runEffect]

/-- C8: open resets everything and reseeds the history from what the
filesystem returns: the text and original become the read contents, undo
and redo become impossible, and the file path is set. -/
theorem C8_open_discards_history {T : Type} (ops : FSOps T)
    (d : GenericDocument T) (p : RustPath) (c : String)
    (h : (ops.read_to_string d.fs p).1 = c) :
    (GenericDocument.open_doc ops d p).text = c ∧
    (GenericDocument.open_doc ops d p).original = some c ∧
    (GenericDocument.open_doc ops d p).can_undo = false ∧
    (GenericDocument.open_doc ops d p).can_redo = false ∧
    (GenericDocument.open_doc ops d p).filepath = some p := by
  subst h
  exact ⟨rfl, rfl, rfl, rfl, rfl⟩

/-- Witness for C8: the spec scenario update("a"); update("b"); open(p)
with storage holding "c". -/
theorem C8_witness :
    (GenericDocument.open_doc mockOps
        (((GenericDocument.new "c").update "a").update "b") pW).text = "c" ∧
    (GenericDocument.open_doc mockOps
        (((GenericDocument.new "c").update "a").update "b") pW).original = some "c" ∧
    (GenericDocument.open_doc mockOps
        (((GenericDocument.new "c").update "a").update "b") pW).can_undo = false ∧
    (GenericDocument.open_doc mockOps
        (((GenericDocument.new "c").update "a").update "b") pW).can_redo = false ∧
    (GenericDocument.open_doc mockOps
        (((GenericDocument.new "c").update "a").update "b") pW).filepath = some pW :=
  C8_open_discards_history mockOps
    (((GenericDocument.new "c").update "a").update "b") pW "c" rfl

/-- C10: filename() returns Some of the final path component whenever
that component is a normal file name, but it is not total: a reachable
document whose file path is the bare root (accepted unvalidated by open)
makes filename() panic on the unwrap, modelled by the outer `none`. -/
theorem C10_filename_partial :
    (∀ (T : Type) (d : GenericDocument T) (p : RustPath) (s : String),
        d.file_path = some p → p.fileName = some s →
        d.filename = some (some s)) ∧
    (∃ d : GenericDocument String, Reachable mockOps d ∧ d.filename = none) := by
  constructor
  · intro T d p s hp hs
    simp [GenericDocument.filename, hp, hs]
  · exact ⟨GenericDocument.open_doc mockOps (GenericDocument.new "") pRoot,
      Reachable.open_doc _ pRoot (Reachable.new ""), rfl⟩

/-- Witness for C10 at a concrete document with a normal file path. -/
theorem C10_witness :
    (GenericDocument.open_doc mockOps (GenericDocument.new "") pW).filename =
      some (some "t.txt") :=
  C10_filename_partial.1 String
    (GenericDocument.open_doc mockOps (GenericDocument.new "") pW) pW "t.txt" rfl rfl

/-- C2: save replaces the snapshot at index 0 with the current text,
leaves the revision pointer and every other snapshot numerically
unchanged, and is immediately clean; concretely, from a fresh document,
update("a"); save(p) is clean, and then update("b"); undo() is clean
again because undo returns to the re-anchored baseline "a". -/
theorem C2_save_reanchors {T : Type} (ops : FSOps T) (d : GenericDocument T)
    (p : RustPath) (h : d.history ≠ []) :
    (GenericDocument.save ops d p).history.get? 0 = some d.text ∧
    (GenericDocument.save ops d p).current_revision = d.current_revision ∧
    (∀ i, 0 < i →
      (GenericDocument.save ops d p).history.get? i = d.history.get? i) ∧
    (GenericDocument.save ops d p).is_dirty = some false ∧
    (GenericDocument.save mockOps ((GenericDocument.new "").update "a") pW).is_dirty
      = some false ∧
    (((GenericDocument.save mockOps ((GenericDocument.new "").update "a") pW).update
        "b").undo).is_dirty = some false := by
  rcases hh : d.history with _ | ⟨a, t⟩
  · exact absurd hh h
  have htext : (GenericDocument.save ops d p).text = d.text := by
    show ((d.text :: d.history.eraseIdx 0).get? d.current_revision).getD "" = d.text
    cases hc : d.current_revision with
    | zero => rfl
    | succ n =>
      show ((d.history.eraseIdx 0).get? n).getD "" = d.text
      rw [hh]
      show (t.get? n).getD "" = d.text
      unfold GenericDocument.text
      rw [hh, hc]
      rfl
  refine ⟨rfl, rfl, ?_, ?_, by decide, by decide⟩
  · intro i hi
    match i, hi with
    | i + 1, _ =>
      have hsave : (GenericDocument.save ops d p).history =
          d.text :: d.history.eraseIdx 0 := rfl
      rw [hsave, List.get?_cons_succ, hh]
      rfl
  · show some (!((GenericDocument.save ops d p).text == d.text)) = some false
    rw [htext]
    simp

/-- Witness for C2 at the spec's concrete scenario. -/
theorem C2_witness :
    (GenericDocument.save mockOps ((GenericDocument.new "").update "a") pW).history.get?
      0 = some ((GenericDocument.new "").update "a").text ∧
    (GenericDocument.save mockOps ((GenericDocument.new "").update "a") pW).is_dirty
      = some false := by
  have h := C2_save_reanchors mockOps ((GenericDocument.new "").update "a") pW
    (by decide)
  exact ⟨h.1, h.2.2.2.1⟩

/-- C4 (amended): undo(); redo() restores the pre-undo text whenever
canUndo() was true beforehand, and also whenever canRedo() was false; the
claim's condition canRedo() is neither necessary nor sufficient. -/
theorem C4_undo_redo_inverse {T : Type} (d : GenericDocument T)
    (hpos : d.current_revision < d.history.length)
    (h : d.can_undo = true ∨ d.can_redo = false) :
    d.undo.redo.text = d.text := by
  have hlen : 0 < d.history.length := Nat.lt_of_le_of_lt (Nat.zero_le _) hpos
  have hne : d.history.isEmpty = false := by
    rcases hh : d.history with _ | ⟨a, t⟩
    · rw [hh] at hlen
      simp at hlen
    · rfl
  by_cases h0 : 0 < d.current_revision
  · have hmin :
        min (d.history.length - 1) (d.current_revision - 1 + 1) = d.current_revision := by
      omega
    simp [GenericDocument.undo, GenericDocument.redo, GenericDocument.text, h0, hne,
      hmin]
  · have hp0 : d.current_revision = 0 := by omega
    rcases h with hcu | hcr
    · rw [GenericDocument.can_undo, hp0] at hcu
      simp at hcu
    · rw [GenericDocument.can_redo] at hcr
      simp at hcr
      have hl1 : d.history.length = 1 := by omega
      have hmin :
          min (d.history.length - 1) (d.current_revision + 1) = d.current_revision := by
        omega
      simp [GenericDocument.undo, GenericDocument.redo, GenericDocument.text, h0, hne,
        hmin]

/-- Counterexample for C4 as frozen: at the reachable document obtained
by update("a"); undo(), canRedo() is true beforehand, yet undo(); redo()
does not restore the pre-undo text (it lands on "a" instead of ""). -/
theorem C4_counterexample :
    dUndoOne.can_redo = true ∧ dUndoOne.undo.redo.text ≠ dUndoOne.text := by
  constructor <;> decide

/-- Witness for C4 at a concrete document with canUndo() true. -/
theorem C4_witness :
    ((GenericDocument.new ()).update "a").undo.redo.text =
      ((GenericDocument.new ()).update "a").text :=
  C4_undo_redo_inverse ((GenericDocument.new ()).update "a") (by decide)
    (Or.inl (by decide))

/-- C5: every document reachable by any sequence of update, undo, redo,
reset, open and save calls has a non-empty history with the revision
pointer strictly in bounds; consequently original(), is_dirty() and the
history access inside text() cannot hit their panic or fallback branches,
and the len-1 in can_redo is over a positive length. -/
theorem C5_reachable_invariant {T : Type} (ops : FSOps T) (d : GenericDocument T)
    (h : Reachable ops d) :
    d.history ≠ [] ∧ d.current_revision < d.history.length ∧
    d.original.isSome ∧ d.is_dirty.isSome ∧
    (d.history.get? d.current_revision).isSome := by
  have main : d.history ≠ [] ∧ d.current_revision < d.history.length := by
    induction h with
    | new fs =>
      exact ⟨by simp [GenericDocument.new], by simp [GenericDocument.new]⟩
    | update d v hr ih =>
      constructor
      · simp [GenericDocument.update]
      · simp [GenericDocument.update]
    | undo d hr ih =>
      obtain ⟨ih1, ih2⟩ := ih
      unfold GenericDocument.undo
      split
      · refine ⟨ih1, ?_⟩
        simp
        omega
      · exact ⟨ih1, ih2⟩
    | redo d hr ih =>
      obtain ⟨ih1, ih2⟩ := ih
      have hl : 0 < d.history.length := List.length_pos.mpr ih1
      unfold GenericDocument.redo
      split
      · exact ⟨ih1, ih2⟩
      · refine ⟨ih1, ?_⟩
        simp
        omega
    | reset d hr ih =>
      exact ⟨by simp [GenericDocument.reset], by simp [GenericDocument.reset]⟩
    | open_doc d p hr ih =>
      constructor
      · simp [GenericDocument.open_doc, GenericDocument.reset]
      · simp [GenericDocument.open_doc, GenericDocument.reset]
    | save d p hr ih =>
      obtain ⟨ih1, ih2⟩ := ih
      rcases hh : d.history with _ | ⟨a, t⟩
      · exact absurd hh ih1
      constructor
      · simp [GenericDocument.save]
      · show d.current_revision < (d.text :: d.history.eraseIdx 0).length
        rw [hh] at ih2
        rw [hh]
        simp at ih2 ⊢
        omega
  obtain ⟨h1, h2⟩ := main
  have h5 : (d.history.get? d.current_revision).isSome := by
    rw [List.get?_eq_get h2]
    rfl
  have h3 : d.original.isSome := by
    have h0 : 0 < d.history.length := List.length_pos.mpr h1
    unfold GenericDocument.original
    rw [List.get?_eq_get h0]
    rfl
  have h4 : d.is_dirty.isSome := by
    unfold GenericDocument.is_dirty
    rcases ho : d.original with _ | o
    · rw [ho] at h3
      simp at h3
    · simp [ho]
  exact ⟨h1, h2, h3, h4, h5⟩

/-- Witness for C5 at the freshly constructed document. -/
theorem C5_witness :
    (GenericDocument.new "").history ≠ [] ∧
    (GenericDocument.new "").current_revision <
      (GenericDocument.new "").history.length ∧
    (GenericDocument.new "").original.isSome ∧
    (GenericDocument.new "").is_dirty.isSome ∧
    ((GenericDocument.new "").history.get?
      (GenericDocument.new "").current_revision).isSome :=
  C5_reachable_invariant mockOps (GenericDocument.new "") (Reachable.new "")

/-- C1 (amended): update(newText) first evicts the snapshot at index 1
(never index 0) exactly when the history is at MAX_UNDO, and only then
truncates the already-shifted history to position+1 before appending
newText and advancing the position to the new tail; afterwards text() is
newText and canRedo() is false. By the history characterization (third
conjunct), when no eviction fires, or when eviction fires at position 0,
the kept prefix holds only old indices up to position, so the redo-able
future is fully discarded there; but when eviction fires with
1 ≤ position < len-1, the formerly redo-able snapshot at old index
position+1 lands at index position of the new history, just below the
appended newText, and so remains reachable by undo (final conjunct; the
counterexample shows it concretely). -/
theorem C1_update_characterization {T : Type} (d : GenericDocument T) (v : String)
    (hcap : d.history.length ≤ MAX_UNDO) :
    (d.update v).text = v ∧
    (d.update v).can_redo = false ∧
    (d.update v).history =
      (if d.history.length = MAX_UNDO then d.history.eraseIdx 1
       else d.history).take (d.current_revision + 1) ++ [v] ∧
    (d.update v).current_revision = (d.update v).history.length - 1 ∧
    (d.history.length = MAX_UNDO → 1 ≤ d.current_revision →
      d.current_revision < d.history.length - 1 →
      (d.update v).history.get? d.current_revision =
        d.history.get? (d.current_revision + 1)) := by
  refine ⟨GenericDocument.text_update d v, GenericDocument.can_redo_update d v,
    ?_, rfl, ?_⟩
  · by_cases hc : d.history.length = MAX_UNDO
    · have hle : MAX_UNDO ≤ d.history.length := le_of_eq hc.symm
      simp [GenericDocument.update, hc, hle]
    · have hlt : ¬ MAX_UNDO ≤ d.history.length := by omega
      simp [GenericDocument.update, hc, hlt]
  · intro hfull h1 hlt
    have hM : MAX_UNDO = 100 := rfl
    rw [hM] at hfull
    have hle : MAX_UNDO ≤ d.history.length := by
      rw [hM]
      omega
    have hupd : (d.update v).history =
        (d.history.eraseIdx 1).take (d.current_revision + 1) ++ [v] := by
      simp [GenericDocument.update, hle]
    have hlenE : (d.history.eraseIdx 1).length = d.history.length - 1 := by
      rw [List.length_eraseIdx]
      split <;> omega
    have htl : ((d.history.eraseIdx 1).take (d.current_revision + 1)).length =
        d.current_revision + 1 := by
      rw [List.length_take, hlenE]
      omega
    rw [hupd, List.get?_append (by rw [htl]; omega),
      List.get?_take (Nat.lt_succ_self _)]
    rcases hh : d.history with _ | ⟨a, t⟩
    · rw [hh] at hfull
      simp at hfull
    rcases t with _ | ⟨b, rest⟩
    · rw [hh] at hfull
      simp at hfull
    obtain ⟨n, hn⟩ : ∃ n, d.current_revision = n + 1 :=
      ⟨d.current_revision - 1, by omega⟩
    rw [hn]
    rfl

/-- Counterexample for C1 as frozen: at the reachable document d100
(full history ["", "0", ..., "98"], position 50), the snapshot "50" sits
at index 51 and is redo-able future; after update("x") it lands at index
50 (= position, just below the appended new text) and is still reachable
by a single undo, because the eviction of index 1 shifted it into the
kept prefix before the truncation. -/
theorem C1_counterexample :
    ¬ (∀ (i : Nat) (s : String), d100.current_revision < i →
        d100.history.get? i = some s →
        ∀ k, (undoN k (d100.update "x")).text ≠ s) := by
  intro hcl
  exact hcl 51 "50" (by decide) (by decide) 1 (by decide)

/-- Witness for C1: the characterization at a fresh document with
update("a"), and the survivor conjunct at the full-history document d100
(eviction firing with 1 ≤ position < len-1). -/
theorem C1_witness :
    ((GenericDocument.new ()).update "a").text = "a" ∧
    ((GenericDocument.new ()).update "a").can_redo = false ∧
    ((GenericDocument.new ()).update "a").history =
      (if (GenericDocument.new ()).history.length = MAX_UNDO
       then (GenericDocument.new ()).history.eraseIdx 1
       else (GenericDocument.new ()).history).take
        ((GenericDocument.new ()).current_revision + 1) ++ ["a"] ∧
    ((GenericDocument.new ()).update "a").current_revision =
      ((GenericDocument.new ()).update "a").history.length - 1 ∧
    (d100.update "x").history.get? d100.current_revision =
      d100.history.get? (d100.current_revision + 1) := by
  refine ⟨?_, ?_, ?_, ?_, ?_⟩
  · exact (C1_update_characterization (GenericDocument.new ()) "a" (by decide)).1
  · exact (C1_update_characterization (GenericDocument.new ()) "a" (by decide)).2.1
  · exact (C1_update_characterization (GenericDocument.new ()) "a" (by decide)).2.2.1
  · exact (C1_update_characterization (GenericDocument.new ()) "a" (by decide)).2.2.2.1
  · exact (C1_update_characterization d100 "x" (by decide)).2.2.2.2
      (by decide) (by decide) (by decide)

/-- Helper: an update made while the revision pointer is at the tail of
the history acts on the history exactly as `updateTail`. -/
theorem update_history_at_tail {T : Type} (d : GenericDocument T) (v : String)
    (hpos : d.current_revision = d.history.length - 1) (hne : d.history ≠ []) :
    (d.update v).history = updateTail d.history v := by
  have hl : 0 < d.history.length := List.length_pos.mpr hne
  by_cases hc : MAX_UNDO ≤ d.history.length
  · have ht : (d.history.eraseIdx 1).take (d.current_revision + 1) =
        d.history.eraseIdx 1 := by
      apply List.take_of_length_le
      rw [List.length_eraseIdx]
      split <;> omega
    simp [GenericDocument.update, updateTail, hc, ht]
  · have ht : d.history.take (d.current_revision + 1) = d.history := by
      apply List.take_of_length_le
      omega
    simp [GenericDocument.update, updateTail, hc, ht]

/-- Helper: updateAll over an empty list of texts is the identity. -/
theorem updateAll_nil {T : Type} (d : GenericDocument T) : updateAll d [] = d := rfl

/-- Helper: updateAll peels off the first update. -/
theorem updateAll_cons {T : Type} (d : GenericDocument T) (v : String)
    (vs : List String) : updateAll d (v :: vs) = updateAll (d.update v) vs := rfl

/-- Helper: starting from a tail-positioned document, the history of a
whole sequence of updates is a fold of `updateTail`, and the result is
again tail-positioned and non-empty. -/
theorem updateAll_history_at_tail {T : Type} :
    ∀ (vs : List String) (d : GenericDocument T),
      d.current_revision = d.history.length - 1 → d.history ≠ [] →
      (updateAll d vs).history = vs.foldl updateTail d.history ∧
      (updateAll d vs).current_revision = (updateAll d vs).history.length - 1 ∧
      (updateAll d vs).history ≠ []
  | [], d, h1, h2 => ⟨rfl, h1, h2⟩
  | v :: vs, d, h1, h2 => by
    have hstep := update_history_at_tail d v h1 h2
    have hpos2 : (d.update v).current_revision = (d.update v).history.length - 1 := rfl
    have hne2 : (d.update v).history ≠ [] := by
      simp [GenericDocument.update]
    have ih := updateAll_history_at_tail vs (d.update v) hpos2 hne2
    rw [updateAll_cons]
    refine ⟨?_, ih.2.1, ih.2.2⟩
    rw [ih.1, hstep]
    rfl

/-- Helper: closed form for a fold of `updateTail` over a bounded
non-empty history: the head (the baseline) survives every step, and the
rest is the suffix of the old tail followed by the new texts that fits
under the capacity. -/
theorem foldl_updateTail :
    ∀ (vs : List String) (H : List String), H ≠ [] → H.length ≤ MAX_UNDO →
      vs.foldl updateTail H =
        H.headD "" ::
          (H.tail ++ vs).drop (H.tail.length + vs.length - (MAX_UNDO - 1))
  | [], H, h1, h2 => by
    have hM : MAX_UNDO = 100 := rfl
    rcases H with _ | ⟨a, t⟩
    · exact absurd rfl h1
    have hlen : t.length + 1 ≤ 100 := by
      rw [hM] at h2
      simpa using h2
    have hz : t.length - (MAX_UNDO - 1) = 0 := by
      rw [hM]
      omega
    simp [hz]
  | v :: vs, H, h1, h2 => by
    have hM : MAX_UNDO = 100 := rfl
    rcases H with _ | ⟨a, t⟩
    · exact absurd rfl h1
    by_cases hc : MAX_UNDO ≤ (a :: t).length
    · have hlen : t.length + 1 = 100 := by
        rw [hM] at hc h2
        simp at hc h2
        omega
      rcases t with _ | ⟨b, rest⟩
      · simp at hlen
      have hrest : rest.length = 98 := by
        simp at hlen
        omega
      have hstep : updateTail (a :: b :: rest) v = (a :: rest) ++ [v] := by
        unfold updateTail
        rw [if_pos hc]
        rfl
      have hne2 : (a :: rest) ++ [v] ≠ [] := by simp
      have hlen2 : ((a :: rest) ++ [v]).length ≤ MAX_UNDO := by
        rw [hM]
        simp
        omega
      have ih := foldl_updateTail vs ((a :: rest) ++ [v]) hne2 hlen2
      show List.foldl updateTail (updateTail (a :: b :: rest) v) vs = _
      rw [hstep, ih]
      simp only [List.cons_append, List.headD_cons, List.tail_cons,
        List.length_append, List.length_cons, List.length_nil, List.append_assoc,
        List.singleton_append]
      have e1 : rest.length + (0 + 1) + vs.length - (MAX_UNDO - 1) = vs.length := by
        rw [hM, hrest]
        omega
      have e2 : rest.length + 1 + (vs.length + 1) - (MAX_UNDO - 1) = vs.length + 1 := by
        rw [hM, hrest]
        omega
      rw [e1, e2, List.drop_succ_cons]
      simp
    · have hstep : updateTail (a :: t) v = (a :: t) ++ [v] := by
        unfold updateTail
        rw [if_neg hc]
      have hne2 : (a :: t) ++ [v] ≠ [] := by simp
      have hlen2 : ((a :: t) ++ [v]).length ≤ MAX_UNDO := by
        rw [hM] at hc ⊢
        simp at hc ⊢
        omega
      have ih := foldl_updateTail vs ((a :: t) ++ [v]) hne2 hlen2
      show List.foldl updateTail (updateTail (a :: t) v) vs = _
      rw [hstep, ih]
      simp only [List.cons_append, List.headD_cons, List.tail_cons,
        List.length_append, List.length_cons, List.length_nil, List.append_assoc,
        List.singleton_append]
      have e3 : t.length + (0 + 1) + vs.length = t.length + (vs.length + 1) := by
        omega
      rw [e3]
      simp

/-- Helper: iterated undo leaves the history alone and lowers the
revision pointer by the iteration count, with the same floor at 0 as the
single-step operation. -/
theorem undoN_history {T : Type} :
    ∀ (k : Nat) (d : GenericDocument T),
      (undoN k d).history = d.history ∧
      (undoN k d).current_revision = d.current_revision - k
  | 0, d => ⟨rfl, rfl⟩
  | k + 1, d => by
    have ih := undoN_history k d.undo
    have hh : d.undo.history = d.history := by
      unfold GenericDocument.undo
      split <;> rfl
    have hp : d.undo.current_revision = d.current_revision - 1 := by
      unfold GenericDocument.undo
      split
      · rfl
      · omega
    constructor
    · rw [show undoN (k + 1) d = undoN k d.undo from rfl, ih.1, hh]
    · rw [show undoN (k + 1) d = undoN k d.undo from rfl, ih.2, hp]
      omega

/-- Helper: when the revision pointer is in bounds, the visible text is
one of the history's snapshots. -/
theorem text_mem {T : Type} (d : GenericDocument T)
    (h : d.current_revision < d.history.length) : d.text ∈ d.history := by
  unfold GenericDocument.text
  rw [List.get?_eq_get h]
  exact List.get_mem _ _ _

/-- C7: after exactly MAX_UNDO (100) update calls on any in-invariant
document, the baseline snapshot at index 0 is untouched (original() is
unchanged), the whole history is exactly the old baseline followed by
the last 99 of the new texts, and the text passed to the first of those
updates (when distinct from everything that remains) is unreachable by
any number of undo() calls. -/
theorem C7_eviction_protects_baseline {T : Type} (d : GenericDocument T)
    (vs : List String) (hne : d.history ≠ [])
    (hpos : d.current_revision < d.history.length)
    (hcap : d.history.length ≤ MAX_UNDO) (hlen : vs.length = MAX_UNDO) :
    (updateAll d vs).original = d.original ∧
    (updateAll d vs).history = d.history.headD "" :: vs.tail ∧
    (vs.headD "" ∉ d.history.headD "" :: vs.tail →
      ∀ k, (undoN k (updateAll d vs)).text ≠ vs.headD "") := by
  have hM : MAX_UNDO = 100 := rfl
  rcases vs with _ | ⟨v1, vsr⟩
  · rw [hM] at hlen
    simp at hlen
  have hvsr : vsr.length = 99 := by
    rw [hM] at hlen
    simp at hlen
    omega
  rcases hh : d.history with _ | ⟨a, t⟩
  · exact absurd hh hne
  -- the first update
  have hbase : ∃ u, (if MAX_UNDO ≤ d.history.length then d.history.eraseIdx 1
      else d.history) = a :: u := by
    rw [hh]
    split
    · exact ⟨t.eraseIdx 0, rfl⟩
    · exact ⟨t, rfl⟩
  obtain ⟨u, hu⟩ := hbase
  have h1hist : (d.update v1).history =
      a :: (u.take d.current_revision ++ [v1]) := by
    show (if MAX_UNDO ≤ d.history.length then d.history.eraseIdx 1
        else d.history).take (d.current_revision + 1) ++ [v1] = _
    rw [hu]
    rfl
  have hulen : u.length + 1 =
      (if MAX_UNDO ≤ d.history.length then d.history.eraseIdx 1
        else d.history).length := by
    rw [hu]
    rfl
  have hule : u.length ≤ MAX_UNDO - 2 ∨ d.current_revision ≤ MAX_UNDO - 2 := by
    by_cases hc : MAX_UNDO ≤ d.history.length
    · left
      rw [if_pos hc, List.length_eraseIdx] at hulen
      rw [hM] at hc ⊢
      rw [hM] at hcap
      split at hulen <;> omega
    · right
      rw [hM] at hc ⊢
      omega
  have hlen1 : (d.update v1).history.length ≤ MAX_UNDO := by
    rw [h1hist]
    simp [List.length_take]
    rw [hM] at hule ⊢
    omega
  have hne1 : (d.update v1).history ≠ [] := by
    rw [h1hist]
    simp
  have hAll := updateAll_history_at_tail vsr (d.update v1) rfl hne1
  have hFold := foldl_updateTail vsr (d.update v1).history hne1 hlen1
  rw [h1hist] at hFold
  simp only [List.headD_cons, List.tail_cons] at hFold
  have e : (u.take d.current_revision ++ [v1]).length + vsr.length - (MAX_UNDO - 1) =
      (u.take d.current_revision ++ [v1]).length := by
    rw [hvsr, hM]
    omega
  rw [e, List.drop_left] at hFold
  have hhist : (updateAll d (v1 :: vsr)).history = a :: vsr := by
    rw [updateAll_cons, hAll.1, h1hist, hFold]
  refine ⟨?_, ?_, ?_⟩
  · show (updateAll d (v1 :: vsr)).history.get? 0 = d.history.get? 0
    rw [hhist, hh]
    rfl
  · rw [hhist]
    rfl
  · intro hmem k
    have hm : v1 ∉ a :: vsr := by
      simpa using hmem
    have hposD : (updateAll d (v1 :: vsr)).current_revision =
        (updateAll d (v1 :: vsr)).history.length - 1 := hAll.2.1
    have hu1 := undoN_history k (updateAll d (v1 :: vsr))
    have hlt : (undoN k (updateAll d (v1 :: vsr))).current_revision <
        (undoN k (updateAll d (v1 :: vsr))).history.length := by
      rw [hu1.1, hu1.2, hposD, hhist]
      simp only [List.length_cons]
      omega
    have hmemT := text_mem (undoN k (updateAll d (v1 :: vsr))) hlt
    rw [hu1.1, hhist] at hmemT
    intro heq
    rw [heq] at hmemT
    exact hm (by simpa using hmemT)

/-- Witness for C7: one hundred distinct updates on a fresh document
keep the empty baseline and push the first update text out of reach. -/
theorem C7_witness :
    (updateAll (GenericDocument.new ()) vsW).original = some "" ∧
    (undoN 0 (updateAll (GenericDocument.new ()) vsW)).text ≠ "0" := by
  have h := C7_eviction_protects_baseline (GenericDocument.new ()) vsW (by decide)
    (by decide) (by decide) (by decide)
  constructor
  · rw [h.1]
    rfl
  · have hhead : vsW.headD "" = "0" := by decide
    have h3 := h.2.2 (by decide) 0
    rw [hhead] at h3
    exact h3

end TextEdit2
